import Mathlib

/-!
Verification of the serial-testkit wire protocol and session engine.

This file gives a shallow embedding of the canonical `common/`, `client/`,
`server/`, `session/` packages of the repository and proves the frozen
claims about them.

Modelling conventions:
* A byte is `Fin 256`; a byte string (Python `bytes`) is `List (Fin 256)`.
* A blocking reader over a serial port is modelled by the finite list of
  bytes that arrive before the enclosing deadline: `read n` yields
  `take n` of the list and leaves `drop n`.  When the list is exhausted a
  read returns fewer bytes than requested, exactly as a timed-out port
  read does.
* Time-budgeted polling loops (`client_shutdown`, `wait_for_fin`,
  `server_send_syn_ack_wait_ack`) are modelled with a fuel counter that
  bounds the number of loop iterations; since every failed iteration
  consumes at least one byte of the incoming stream, fuel
  `stream.length + 1` is enough for the loop to reach either its success
  condition or the exhausted-stream state, which corresponds to the wall
  clock timeout.  Fuel-irrelevance is proved below.
* Wall-clock values (RTT measurements) and port write results are inputs
  the environment provides, modelled as oracles indexed by the round
  number.  Logging has no behavioural effect and is omitted.
-/

set_option maxRecDepth 100000

namespace Serial

/-- A byte, as stored in a Python `bytes` object. -/
abbrev Byte := Fin 256

/-- A byte string. -/
abbrev Bytes := List Byte

/-! ## common/message.py : frame codec -/

/-- `SYNC_MAGIC = 0x5E5A1000` (common/message.py). -/
def SYNC_MAGIC : Nat := 0x5E5A1000

/-- `MAX_MESSAGE_LENGTH = 4096` (common/message.py). -/
def MAX_MESSAGE_LENGTH : Nat := 4096

/-- `MAX_RESYNC_BYTES = 8192` (common/message.py). -/
def MAX_RESYNC_BYTES : Nat := 8192

/-- `uint32_to_bytes`: little-endian 4-byte encoding of an unsigned 32-bit
integer (common/message.py). -/
def uint32_to_bytes (v : Nat) : Bytes :=
  [⟨v % 256, by omega⟩, ⟨v / 256 % 256, by omega⟩,
   ⟨v / 256 ^ 2 % 256, by omega⟩, ⟨v / 256 ^ 3 % 256, by omega⟩]

/-- `uint32_from_bytes`: little-endian decoding (common/message.py;
`int.from_bytes(data, "little")`). -/
def uint32_from_bytes (bs : Bytes) : Nat :=
  bs.foldr (fun b acc => b.val + 256 * acc) 0

/-- `SYNC_MAGIC_BYTES` (common/message.py). -/
def SYNC_MAGIC_BYTES : Bytes := uint32_to_bytes SYNC_MAGIC

/-- One shift-and-conditional-xor round of the reflected IEEE-802.3 CRC-32,
as computed by `zlib.crc32`. -/
def crc32_round (c : Nat) : Nat :=
  if c % 2 = 1 then (c / 2) ^^^ 0xEDB88320 else c / 2

/-- Fold one byte into a CRC-32 accumulator. -/
def crc32_byte (c : Nat) (b : Byte) : Nat :=
  crc32_round^[8] (c ^^^ b.val)

/-- `zlib.crc32`: init `0xFFFFFFFF`, final xor `0xFFFFFFFF`. -/
def crc32 (data : Bytes) : Nat :=
  (data.foldl crc32_byte 0xFFFFFFFF) ^^^ 0xFFFFFFFF

/-- `message.encode`: `sync || len_le || payload || crc_le`
(common/message.py). -/
def encode (payload : Bytes) : Bytes :=
  SYNC_MAGIC_BYTES ++ uint32_to_bytes payload.length ++ payload
    ++ uint32_to_bytes (crc32 payload)

/-- The resync scan of `message.decode` (common/message.py lines 92-104):
slide a 4-byte window over the stream until it equals the sync magic,
giving up after `MAX_RESYNC_BYTES` single-byte reads or when the reader
returns no byte.  Returns (found, rest-of-stream). -/
def resync (window : Bytes) (scanned : Nat) (stream : Bytes) : Bool × Bytes :=
  if window = SYNC_MAGIC_BYTES then (true, stream)
  else if MAX_RESYNC_BYTES ≤ scanned then (false, stream)
  else
    match stream with
    | [] => (false, [])
    | b :: rest => resync (window.drop 1 ++ [b]) (scanned + 1) rest

/-- `message.decode` (common/message.py): returns `(payload?, crc_ok)`
together with the bytes the reader has not consumed. -/
def decode (stream : Bytes) : (Option Bytes × Bool) × Bytes :=
  let sync := stream.take 4
  let s1 := stream.drop 4
  if sync.length < 4 then ((none, false), s1)
  else
    match resync sync 0 s1 with
    | (false, s2) => ((none, false), s2)
    | (true, s2) =>
      let lenB := s2.take 4
      let s3 := s2.drop 4
      if lenB.length < 4 then ((none, false), s3)
      else
        let len := uint32_from_bytes lenB
        if MAX_MESSAGE_LENGTH < len then ((none, false), s3)
        else
          let payload := s3.take len
          let s4 := s3.drop len
          let crcB := s4.take 4
          let s5 := s4.drop 4
          if payload.length < len ∨ crcB.length < 4 then ((none, false), s5)
          else ((some payload, uint32_from_bytes crcB == crc32 payload), s5)

/-! ## common/protocol.py and common/encoding.py : message codec -/

/-- `CONN_ID_SIZE = 4` (common/protocol.py). -/
def CONN_ID_SIZE : Nat := 4

/-- `MsgType` (common/protocol.py). -/
inductive MsgType where
  | SYN | SYN_ACK | ACK | DATA | FIN | FIN_ACK
deriving DecidableEq

/-- Numeric value of each `MsgType` variant, as a byte. -/
def MsgType.toByte : MsgType → Byte
  | .SYN => 0x01
  | .SYN_ACK => 0x02
  | .ACK => 0x03
  | .DATA => 0x10
  | .FIN => 0x20
  | .FIN_ACK => 0x21

/-- `MsgType(value)` — Python's `IntEnum` lookup, `none` when the byte is
not a recognised variant (raises `ValueError` in the source). -/
def MsgType.ofByte? (b : Byte) : Option MsgType :=
  if b = 0x01 then some .SYN
  else if b = 0x02 then some .SYN_ACK
  else if b = 0x03 then some .ACK
  else if b = 0x10 then some .DATA
  else if b = 0x20 then some .FIN
  else if b = 0x21 then some .FIN_ACK
  else none

/-- The two exception types of common/encoding.py that frame decoding can
raise: `TransportError` and `EncodingError`. -/
inductive DecodeError where
  | transport | encoding
deriving DecidableEq

/-- `encode_control` (common/encoding.py): `[type][conn_id]` framed. -/
def encode_control (t : MsgType) (connId : Bytes) : Bytes :=
  encode (t.toByte :: connId)

/-- `encode_ack_with_params` (common/encoding.py):
`[type=0x03][conn_id][msg_count_le]` framed. -/
def encode_ack_with_params (connId : Bytes) (msgCount : Nat) : Bytes :=
  encode (MsgType.ACK.toByte :: (connId ++ uint32_to_bytes msgCount))

/-- `decode_ack_with_params` (common/encoding.py): requires at least
9 payload bytes, returns `(conn_id, msg_count)`; `none` models the
`EncodingError` raise. -/
def decode_ack_with_params (payload : Bytes) : Option (Bytes × Nat) :=
  if payload.length < 1 + CONN_ID_SIZE + 4 then none
  else some ((payload.drop 1).take CONN_ID_SIZE,
    uint32_from_bytes ((payload.drop (1 + CONN_ID_SIZE)).take 4))

/-- `encode_data` (common/encoding.py): `[type=0x10][conn_id][data]`
framed. -/
def encode_data (connId : Bytes) (data : Bytes) : Bytes :=
  encode (MsgType.DATA.toByte :: (connId ++ data))

/-- `decode_message` (common/encoding.py): frame-decode, then split the
payload into `(msg_type, conn_id, data, crc_ok)`.  The second component is
the unconsumed part of the stream.  `Except.error` models the
`TransportError` / `EncodingError` raises. -/
def decode_message (stream : Bytes) :
    Except DecodeError (MsgType × Bytes × Bytes × Bool) × Bytes :=
  match decode stream with
  | ((none, _), s') => (.error .transport, s')
  | ((some payload, crcOk), s') =>
    if payload.length < 1 + CONN_ID_SIZE then (.error .encoding, s')
    else
      match MsgType.ofByte? (payload.headD 0) with
      | none => (.error .encoding, s')
      | some t =>
        (.ok (t, (payload.drop 1).take CONN_ID_SIZE,
          payload.drop (1 + CONN_ID_SIZE), crcOk), s')

/-! ## common/io.py : recv_data -/

/-- The exceptions `recv_data` can raise (common/io.py):
transport / encoding from `decode_message`, plus
`ConnectionMismatchError` and `UnexpectedMessageError`. -/
inductive RecvError where
  | transport | encoding | connMismatch | unexpectedMessage
deriving DecidableEq

/-- `recv_data` (common/io.py): decode one message, require the
connection id to match, and return `(payload, crc_ok, msg_type)` for DATA,
`(b"", False, FIN)` for FIN; any other type raises
`UnexpectedMessageError`. -/
def recv_data (connId : Bytes) (stream : Bytes) :
    Except RecvError (Bytes × Bool × MsgType) × Bytes :=
  match decode_message stream with
  | (.error .transport, s') => (.error .transport, s')
  | (.error .encoding, s') => (.error .encoding, s')
  | (.ok (t, recvId, data, crcOk), s') =>
    if recvId ≠ connId then (.error .connMismatch, s')
    else
      match t with
      | .DATA => (.ok (data, crcOk, .DATA), s')
      | .FIN => (.ok ([], false, .FIN), s')
      | _ => (.error .unexpectedMessage, s')

/-! ## session/result.py : latency statistics and session results -/

/-- `LatencyStats` (session/result.py).  Python float arithmetic is
modelled by exact rational arithmetic. -/
structure LatencyStats where
  count : Nat
  min_ms : ℚ
  max_ms : ℚ
  avg_ms : ℚ
  p50_ms : ℚ
  p95_ms : ℚ
  p99_ms : ℚ
deriving DecidableEq

/-- The `percentile` helper inside `compute_latency_stats`
(session/result.py): `sorted_data[int(p / 100 * (len(sorted_data) - 1))]`.
`int(...)` truncates a nonnegative float, i.e. takes the floor; list
indexing is modelled with `getD` (the index is in range for the
percentiles used). -/
def percentile (sortedData : List ℚ) (p : ℚ) : ℚ :=
  sortedData.getD (Nat.floor (p / 100 * ((sortedData.length : ℚ) - 1))) 0

/-- `compute_latency_stats` (session/result.py): `None` on an empty
sample list; otherwise sort the samples converted to milliseconds and
take min / max / average and nearest-rank percentiles.  Python's
`sorted` is modelled by insertion sort (equal on a total order). -/
def compute_latency_stats (rtt_samples : List ℚ) : Option LatencyStats :=
  if rtt_samples = [] then none
  else
    let samples_ms := List.insertionSort (· ≤ ·)
      (rtt_samples.map (fun s => s * 1000))
    some
      { count := rtt_samples.length
        min_ms := samples_ms.headD 0
        max_ms := samples_ms.getLastD 0
        avg_ms := samples_ms.sum / (rtt_samples.length : ℚ)
        p50_ms := percentile samples_ms 50
        p95_ms := percentile samples_ms 95
        p99_ms := percentile samples_ms 99 }

/-- The three `SessionError` messages raised in session/exchange.py,
abstracted to constructors. -/
inductive SessionErr where
  /-- "Timeout waiting for response/message {n}". -/
  | timeout (n : Nat)
  /-- "Server sent FIN during exchange". -/
  | serverSentFin
  /-- "Client sent FIN after {n} messages". -/
  | clientSentFin (n : Nat)
deriving DecidableEq

/-- `SessionResult` (session/result.py).  `elapsed_s` is wall-clock only
and is omitted. -/
structure SessionResult where
  success : Bool
  sent : Nat
  received : Nat
  crc_ok : Nat
  crc_errors : Nat
  bytes_sent : Nat
  bytes_received : Nat
  rtt_samples : List ℚ
  error : Option SessionErr
  fin_ack_received : Bool
  fin_received : Bool
deriving DecidableEq

/-- `_SessionStats` (session/exchange.py): the internal accumulator. -/
structure Stats where
  sent : Nat
  received : Nat
  crc_ok : Nat
  crc_errors : Nat
  bytes_sent : Nat
  bytes_received : Nat
  rtt_samples : List ℚ
deriving DecidableEq

/-- `_SessionStats()` with all counters zero. -/
def Stats.start : Stats := ⟨0, 0, 0, 0, 0, 0, []⟩

/-- `SessionResult(..., **_stats_to_dict(stats))` (session/exchange.py). -/
def mkResult (success : Bool) (st : Stats) (error : Option SessionErr)
    (finAck finRecv : Bool) : SessionResult :=
  { success := success
    sent := st.sent
    received := st.received
    crc_ok := st.crc_ok
    crc_errors := st.crc_errors
    bytes_sent := st.bytes_sent
    bytes_received := st.bytes_received
    rtt_samples := st.rtt_samples
    error := error
    fin_ack_received := finAck
    fin_received := finRecv }

/-! ## Environment: port write results, RTT clock, incoming bytes

`port.write` returns `int | None`; Python increments counters only when
the result is truthy (`if bytes_written:`). -/

/-- Python truthiness of an `int | None` write result. -/
def truthy : Option Nat → Bool
  | none => false
  | some n => n != 0

/-- The collaborators of one exchange: the incoming byte stream, the
result of the `i`-th `port.write`, and the measured RTT of round `i`
(an abstract wall-clock difference). -/
structure PortEnv where
  stream : Bytes
  writeRes : Nat → Option Nat
  rtt : Nat → ℚ

/-! ## client/shutdown.py, session/exchange.py : polling loops

Each loop polls `decode_message` until success or deadline; fuel bounds
the iterations (see the header comment).  The wrappers supply fuel
`stream.length + 1`, which is enough because every iteration that does
not exit consumes at least one byte. -/

/-- Iteration structure of `client_shutdown` (client/shutdown.py):
retransmit FIN (outgoing, no effect on the model) and poll for a
CRC-valid FIN_ACK with the right connection id; transport / encoding
errors and all other frames are ignored.  Exhausted stream or fuel is the
wall-clock timeout, returning `false`. -/
def client_shutdown_go (connId : Bytes) : Nat → Bytes → Bool
  | 0, _ => false
  | fuel + 1, s =>
    if s.isEmpty then false
    else
      match decode_message s with
      | (.error _, s') => client_shutdown_go connId fuel s'
      | (.ok (t, recvId, _, crcOk), s') =>
        if t = MsgType.FIN_ACK ∧ recvId = connId ∧ crcOk = true then true
        else client_shutdown_go connId fuel s'

/-- `client_shutdown` (client/shutdown.py): returns whether FIN_ACK was
received before the timeout. -/
def client_shutdown (connId : Bytes) (s : Bytes) : Bool :=
  client_shutdown_go connId (s.length + 1) s

/-- Iteration structure of `wait_for_fin` (session/exchange.py): poll for
a CRC-valid FIN with the right connection id, ignoring everything else. -/
def wait_for_fin_go (connId : Bytes) : Nat → Bytes → Bool
  | 0, _ => false
  | fuel + 1, s =>
    if s.isEmpty then false
    else
      match decode_message s with
      | (.error _, s') => wait_for_fin_go connId fuel s'
      | (.ok (t, recvId, _, crcOk), s') =>
        if t = MsgType.FIN ∧ recvId = connId ∧ crcOk = true then true
        else wait_for_fin_go connId fuel s'

/-- `wait_for_fin` (session/exchange.py): true iff FIN arrived in time. -/
def wait_for_fin (connId : Bytes) (s : Bytes) : Bool :=
  wait_for_fin_go connId (s.length + 1) s

/-! ## server/handshake.py : SYN-ACK-sent phase -/

/-- Iteration structure of `server_send_syn_ack_wait_ack`
(server/handshake.py): retransmit SYN_ACK (outgoing), poll frames; on a
CRC-valid ACK with matching id rebuild the full payload
`bytes([ACK]) + recv_id + data` and decode the session params, continuing
when they are absent; duplicate SYN and all other frames continue.
`none` models the `PeeringError` timeout. -/
def server_wait_ack_go (connId : Bytes) : Nat → Bytes → Option Nat
  | 0, _ => none
  | fuel + 1, s =>
    if s.isEmpty then none
    else
      match decode_message s with
      | (.error _, s') => server_wait_ack_go connId fuel s'
      | (.ok (t, recvId, data, crcOk), s') =>
        if t = MsgType.ACK ∧ recvId = connId ∧ crcOk = true then
          match decode_ack_with_params (MsgType.ACK.toByte :: (recvId ++ data)) with
          | none => server_wait_ack_go connId fuel s'
          | some (_, msgCount) => some msgCount
        else server_wait_ack_go connId fuel s'

/-- `server_send_syn_ack_wait_ack` (server/handshake.py): the received
`msg_count`, or `none` on `PeeringError` timeout. -/
def server_send_syn_ack_wait_ack (connId : Bytes) (s : Bytes) : Option Nat :=
  server_wait_ack_go connId (s.length + 1) s

/-! ## session/exchange.py : client exchange -/

/-- `_handle_client_data_response` (session/exchange.py). -/
def handle_client_data_response (st : Stats) (response : Bytes)
    (crcOk : Bool) (rtt : ℚ) : Stats :=
  let st1 := { st with
    received := st.received + 1
    bytes_received :=
      st.bytes_received + (if response.isEmpty then 0 else response.length) }
  if crcOk then
    { st1 with crc_ok := st1.crc_ok + 1
               rtt_samples := st1.rtt_samples ++ [rtt] }
  else { st1 with crc_errors := st1.crc_errors + 1 }

/-- How the round loop of `client_exchange` ended. -/
inductive ClientOutcome where
  | completed
  /-- timeout result mentioning message number `n`. -/
  | timedOut (n : Nat)
  | peerFin
deriving DecidableEq

/-- The `for i in range(msg_count)` loop of `client_exchange`
(session/exchange.py): send DATA (its `port.write` result is
`env.writeRes i`), then `recv_data`; transport / encoding /
connection-mismatch errors abort with the timeout result, FIN aborts with
the peer-FIN result, and an `UnexpectedMessageError` is NOT caught — it
escapes the function (`Except.error`).  A frame type other than DATA or
FIN would fall through Python's `match` and continue the loop (dead code:
`recv_data` never yields one). -/
def client_loop (env : PortEnv) (connId : Bytes) (i : Nat) :
    Nat → Stats → Bytes → Except Unit (ClientOutcome × Stats × Bytes)
  | 0, st, s => .ok (.completed, st, s)
  | remaining + 1, st, s =>
    let bw := env.writeRes i
    let st1 :=
      if truthy bw then
        { st with sent := st.sent + 1, bytes_sent := st.bytes_sent + bw.getD 0 }
      else st
    match recv_data connId s with
    | (.error .unexpectedMessage, _) => .error ()
    | (.error _, s') => .ok (.timedOut (i + 1), st1, s')
    | (.ok (response, crcOk, t), s') =>
      match t with
      | .DATA =>
        client_loop env connId (i + 1) remaining
          (handle_client_data_response st1 response crcOk (env.rtt i)) s'
      | .FIN => .ok (.peerFin, st1, s')
      | _ => client_loop env connId (i + 1) remaining st1 s'

/-- `client_exchange` (session/exchange.py).  The `Except.error` result
is the uncaught `UnexpectedMessageError` propagating to the caller. -/
def client_exchange (env : PortEnv) (connId : Bytes) (msgCount : Nat) :
    Except Unit SessionResult :=
  if msgCount = 0 then
    let finAck := client_shutdown connId env.stream
    .ok (mkResult true Stats.start none finAck false)
  else
    match client_loop env connId 0 msgCount Stats.start env.stream with
    | .error e => .error e
    | .ok (.completed, st, s) =>
      let finAck := client_shutdown connId s
      .ok (mkResult true st none finAck false)
    | .ok (.timedOut n, st, _) =>
      .ok (mkResult false st (some (.timeout n)) false false)
    | .ok (.peerFin, st, _) =>
      .ok (mkResult false st (some .serverSentFin) false false)

/-! ## session/exchange.py : server exchange -/

/-- `_handle_server_data` (session/exchange.py): count the received DATA,
then echo (the echo's `port.write` result is `bw`). -/
def handle_server_data (st : Stats) (data : Bytes) (crcOk : Bool)
    (bw : Option Nat) : Stats :=
  let st1 := { st with
    received := st.received + 1
    bytes_received :=
      st.bytes_received + (if data.isEmpty then 0 else data.length) }
  let st2 :=
    if crcOk then { st1 with crc_ok := st1.crc_ok + 1 }
    else { st1 with crc_errors := st1.crc_errors + 1 }
  if truthy bw then
    { st2 with sent := st2.sent + 1, bytes_sent := st2.bytes_sent + bw.getD 0 }
  else st2

/-- How the round loop of `server_exchange` ended. -/
inductive ServerOutcome where
  | completed
  | timedOut (n : Nat)
  | clientFin
deriving DecidableEq

/-- The `for i in range(msg_count)` loop of `server_exchange`
(session/exchange.py); error handling mirrors `client_loop`. -/
def server_loop (env : PortEnv) (connId : Bytes) (i : Nat) :
    Nat → Stats → Bytes → Except Unit (ServerOutcome × Stats × Bytes)
  | 0, st, s => .ok (.completed, st, s)
  | remaining + 1, st, s =>
    match recv_data connId s with
    | (.error .unexpectedMessage, _) => .error ()
    | (.error _, s') => .ok (.timedOut (i + 1), st, s')
    | (.ok (data, crcOk, t), s') =>
      match t with
      | .DATA =>
        server_loop env connId (i + 1) remaining
          (handle_server_data st data crcOk (env.writeRes i)) s'
      | .FIN => .ok (.clientFin, st, s')
      | _ => server_loop env connId (i + 1) remaining st s'

/-- `server_exchange` (session/exchange.py).  On early client FIN the
result records `fin_received = true` and the error mentions the count of
received messages; `server_shutdown` only writes FIN_ACK (no effect on
the model). -/
def server_exchange (env : PortEnv) (connId : Bytes) (msgCount : Nat) :
    Except Unit SessionResult :=
  if msgCount = 0 then
    let finRecv := wait_for_fin connId env.stream
    .ok (mkResult true Stats.start none false finRecv)
  else
    match server_loop env connId 0 msgCount Stats.start env.stream with
    | .error e => .error e
    | .ok (.completed, st, s) =>
      let finRecv := wait_for_fin connId s
      .ok (mkResult true st none false finRecv)
    | .ok (.timedOut n, st, _) =>
      .ok (mkResult false st (some (.timeout n)) false false)
    | .ok (.clientFin, st, _) =>
      .ok (mkResult false st (some (.clientSentFin st.received)) false true)

/-! ## Helper lemmas -/

theorem uint32_to_bytes_length (v : Nat) : (uint32_to_bytes v).length = 4 := rfl

theorem uint32_from_to (v : Nat) (h : v < 2 ^ 32) :
    uint32_from_bytes (uint32_to_bytes v) = v := by
  simp only [uint32_from_bytes, uint32_to_bytes, List.foldr]
  norm_num
  omega

theorem crc32_round_lt {c : Nat} (h : c < 2 ^ 32) : crc32_round c < 2 ^ 32 := by
  unfold crc32_round
  split
  · exact Nat.xor_lt_two_pow (by omega) (by norm_num)
  · omega

theorem crc32_byte_lt (c : Nat) (b : Byte) (h : c < 2 ^ 32) :
    crc32_byte c b < 2 ^ 32 := by
  unfold crc32_byte
  have hx : c ^^^ b.val < 2 ^ 32 :=
    Nat.xor_lt_two_pow h (lt_trans b.isLt (by norm_num))
  have : ∀ n x, x < 2 ^ 32 → crc32_round^[n] x < 2 ^ 32 := by
    intro n
    induction n with
    | zero => simp
    | succ n ih =>
      intro x hx
      rw [Function.iterate_succ_apply]
      exact ih _ (crc32_round_lt hx)
  exact this 8 _ hx

theorem crc32_lt (data : Bytes) : crc32 data < 2 ^ 32 := by
  unfold crc32
  have h : ∀ l c, c < 2 ^ 32 → List.foldl crc32_byte c l < 2 ^ 32 := by
    intro l
    induction l with
    | nil => simp
    | cons b l ih => exact fun c hc => ih _ (crc32_byte_lt _ _ hc)
  exact Nat.xor_lt_two_pow (h data _ (by norm_num)) (by norm_num)

/-- When the window already holds the sync magic, the resync scan stops
at once. -/
theorem resync_magic (n : Nat) (s : Bytes) :
    resync SYNC_MAGIC_BYTES n s = (true, s) := by
  rw [resync.eq_def]
  simp

/-- Once the resync scan has located the sync magic with a well-formed
frame remainder behind it, `decode` returns the payload with the CRC
comparison and consumes exactly up to the frame end. -/
theorem decode_of_resync (s p crcB rest : Bytes) (hs4 : 4 ≤ s.length)
    (hr : resync (s.take 4) 0 (s.drop 4)
        = (true, uint32_to_bytes p.length ++ (p ++ (crcB ++ rest))))
    (hp : p.length ≤ MAX_MESSAGE_LENGTH) (hc : crcB.length = 4) :
    decode s = ((some p, uint32_from_bytes crcB == crc32 p), rest) := by
  have h3 : (uint32_to_bytes p.length ++ (p ++ (crcB ++ rest))).take 4
      = uint32_to_bytes p.length := List.take_left' (uint32_to_bytes_length _)
  have h4 : (uint32_to_bytes p.length ++ (p ++ (crcB ++ rest))).drop 4
      = p ++ (crcB ++ rest) := List.drop_left' (uint32_to_bytes_length _)
  have hlen : uint32_from_bytes (uint32_to_bytes p.length) = p.length :=
    uint32_from_to _ (by have := hp; unfold MAX_MESSAGE_LENGTH at this; omega)
  have h5 : (p ++ (crcB ++ rest)).take p.length = p := List.take_left' rfl
  have h6 : (p ++ (crcB ++ rest)).drop p.length = crcB ++ rest := List.drop_left' rfl
  have h7 : (crcB ++ rest).take 4 = crcB := List.take_left' hc
  have h8 : (crcB ++ rest).drop 4 = rest := List.drop_left' hc
  have hnotmax : ¬ MAX_MESSAGE_LENGTH < p.length := by omega
  have hmin : (s.take 4).length = 4 := by
    simp only [List.length_take]
    omega
  unfold decode
  simp only [hmin, hr, h3, h4, uint32_to_bytes_length, hlen, h5, h6, h7, h8, hc]
  simp [hnotmax]

/-- Decoding a stream that begins with a well-formed frame — sync magic,
in-range declared length, full payload, 4 declared CRC bytes — yields the
payload together with the CRC comparison and consumes exactly the
frame. -/
theorem decode_framed (p crcB rest : Bytes) (hp : p.length ≤ MAX_MESSAGE_LENGTH)
    (hc : crcB.length = 4) :
    decode (SYNC_MAGIC_BYTES ++ uint32_to_bytes p.length ++ p ++ crcB ++ rest)
      = ((some p, uint32_from_bytes crcB == crc32 p), rest) := by
  have hmlen : SYNC_MAGIC_BYTES.length = 4 := rfl
  apply decode_of_resync _ _ _ _ _ _ hp hc
  · simp [hmlen]
  · simp only [List.append_assoc, List.take_left' hmlen, List.drop_left' hmlen]
    exact resync_magic 0 _

/-- `decode` inverts `encode` and consumes exactly the frame. -/
theorem decode_encode (p rest : Bytes) (hp : p.length ≤ MAX_MESSAGE_LENGTH) :
    decode (encode p ++ rest) = ((some p, true), rest) := by
  have h := decode_framed p (uint32_to_bytes (crc32 p)) rest hp
    (uint32_to_bytes_length _)
  rw [uint32_from_to _ (crc32_lt p)] at h
  unfold encode
  simp only [List.append_assoc] at h ⊢
  simp [h]

/-- Decoding a stream that begins with a sync magic followed by an
over-cap declared length fails and consumes exactly those 8 bytes. -/
theorem decode_length_cap (lenB rest : Bytes) (hl : lenB.length = 4)
    (hgt : MAX_MESSAGE_LENGTH < uint32_from_bytes lenB) :
    decode (SYNC_MAGIC_BYTES ++ lenB ++ rest) = ((none, false), rest) := by
  have hmlen : SYNC_MAGIC_BYTES.length = 4 := rfl
  have h1 : (SYNC_MAGIC_BYTES ++ (lenB ++ rest)).take 4 = SYNC_MAGIC_BYTES :=
    List.take_left' hmlen
  have h2 : (SYNC_MAGIC_BYTES ++ (lenB ++ rest)).drop 4 = lenB ++ rest :=
    List.drop_left' hmlen
  have h3 : (lenB ++ rest).take 4 = lenB := List.take_left' hl
  have h4 : (lenB ++ rest).drop 4 = rest := List.drop_left' hl
  unfold decode
  simp only [List.append_assoc, h1, h2, hmlen, resync_magic, h3, h4, hl]
  simp [hgt]

/-! ## Claims about the frame codec (C1, C2, C4) -/

/-- C2: a CRC mismatch is not a decode failure — for every well-framed
stream whose declared CRC differs from `crc32` of the payload, frame
decode returns the payload unchanged together with `crc_ok = false`
(no `None`, no transport error). -/
theorem C2_crc_mismatch_surfaces_payload (p crcB rest : Bytes)
    (hp : p.length ≤ MAX_MESSAGE_LENGTH) (hc : crcB.length = 4)
    (hne : uint32_from_bytes crcB ≠ crc32 p) :
    decode (SYNC_MAGIC_BYTES ++ uint32_to_bytes p.length ++ p ++ crcB ++ rest)
      = ((some p, false), rest) := by
  rw [decode_framed p crcB rest hp hc]
  simp [hne]

/-- C2 witness: the frame for payload "hello" with the last CRC byte
flipped decodes to the payload with `crc_ok = false`. -/
theorem C2_crc_mismatch_surfaces_payload_witness :
    decode (SYNC_MAGIC_BYTES ++ uint32_to_bytes 5 ++ [104, 101, 108, 108, 111]
        ++ [0x86, 0xA6, 0x10, 0x37] ++ [])
      = ((some [104, 101, 108, 108, 111], false), []) := by
  have h := C2_crc_mismatch_surfaces_payload [104, 101, 108, 108, 111]
    [0x86, 0xA6, 0x10, 0x37] [] (by decide) (by decide) (by decide)
  simpa using h

/-- C4: a sync magic followed by a 4-byte length above
`MAX_MESSAGE_LENGTH` makes decode fail after consuming exactly those
8 bytes, and a following decode call finding a valid frame at the new
position succeeds. -/
theorem C4_length_cap_recovery (lenB p rest : Bytes) (hl : lenB.length = 4)
    (hgt : MAX_MESSAGE_LENGTH < uint32_from_bytes lenB)
    (hp : p.length ≤ MAX_MESSAGE_LENGTH) :
    decode (SYNC_MAGIC_BYTES ++ lenB ++ (encode p ++ rest))
        = ((none, false), encode p ++ rest)
      ∧ decode (encode p ++ rest) = ((some p, true), rest) :=
  ⟨decode_length_cap lenB (encode p ++ rest) hl hgt, decode_encode p rest hp⟩

/-- C4 witness: length bytes `01 10 00 00` (4097) as in the spec's
scenario, followed by the valid frame for the empty payload. -/
theorem C4_length_cap_recovery_witness :
    decode (SYNC_MAGIC_BYTES ++ [0x01, 0x10, 0x00, 0x00] ++ (encode [] ++ []))
        = ((none, false), encode [] ++ [])
      ∧ decode (encode [] ++ []) = ((some [], true), []) :=
  C4_length_cap_recovery [0x01, 0x10, 0x00, 0x00] [] [] (by decide)
    (by decide) (by decide)

/-! ## Message-codec lemmas and C1 -/

theorem MsgType.ofByte?_toByte (t : MsgType) :
    MsgType.ofByte? t.toByte = some t := by
  cases t <;> rfl

/-- `decode_message` on a stream beginning with a well-formed typed frame
(arbitrary declared CRC bytes): the type, connection id and tail are
recovered, `crc_ok` is the CRC comparison. -/
theorem decode_message_framed (t : MsgType) (connId tail crcB rest : Bytes)
    (hid : connId.length = CONN_ID_SIZE) (hc : crcB.length = 4)
    (hp : 1 + CONN_ID_SIZE + tail.length ≤ MAX_MESSAGE_LENGTH) :
    decode_message (SYNC_MAGIC_BYTES
        ++ uint32_to_bytes (t.toByte :: (connId ++ tail)).length
        ++ (t.toByte :: (connId ++ tail)) ++ crcB ++ rest)
      = (.ok (t, connId, tail,
          uint32_from_bytes crcB == crc32 (t.toByte :: (connId ++ tail))), rest) := by
  unfold CONN_ID_SIZE at hid hp
  have hd := decode_framed (t.toByte :: (connId ++ tail)) crcB rest
    (by simp [hid]; omega) hc
  have hlen5 : ¬ ((t.toByte :: (connId ++ tail)).length < 1 + CONN_ID_SIZE) := by
    simp [CONN_ID_SIZE, hid]
  have hdrop1 : (t.toByte :: (connId ++ tail)).drop 1 = connId ++ tail := rfl
  have htake : (connId ++ tail).take 4 = connId := List.take_left' hid
  have hdrop5 : (t.toByte :: (connId ++ tail)).drop (1 + CONN_ID_SIZE) = tail := by
    show (connId ++ tail).drop 4 = tail
    exact List.drop_left' hid
  unfold decode_message
  rw [hd]
  simp only [hlen5, if_false, List.headD_cons, MsgType.ofByte?_toByte,
    hdrop1, hdrop5]
  simp [CONN_ID_SIZE, htake]

/-- `decode_message` inverts the typed encoders: the stream
`encode([type][conn_id][tail]) ++ rest` decodes to
`(type, conn_id, tail, crc_ok = true)` and consumes exactly the frame. -/
theorem decode_message_encode (t : MsgType) (connId tail rest : Bytes)
    (hid : connId.length = CONN_ID_SIZE)
    (hp : 1 + CONN_ID_SIZE + tail.length ≤ MAX_MESSAGE_LENGTH) :
    decode_message (encode (t.toByte :: (connId ++ tail)) ++ rest)
      = (.ok (t, connId, tail, true), rest) := by
  have h := decode_message_framed t connId tail
    (uint32_to_bytes (crc32 (t.toByte :: (connId ++ tail)))) rest hid
    (uint32_to_bytes_length _) hp
  rw [uint32_from_to _ (crc32_lt _)] at h
  simp only [beq_self_eq_true] at h
  unfold encode
  simp only [List.append_assoc] at h ⊢
  exact h

/-- C1: message round-trip — for a 4-byte connection id and a payload of
at most `MAX_MESSAGE_LENGTH - 5` bytes, decoding the stream produced by
`encode_data` yields `(DATA, conn_id, payload, crc_ok = true)`. -/
theorem C1_data_roundtrip (connId p : Bytes) (hid : connId.length = 4)
    (hp : p.length ≤ MAX_MESSAGE_LENGTH - 5) :
    decode_message (encode_data connId p) = (.ok (.DATA, connId, p, true), []) := by
  have h := decode_message_encode .DATA connId p [] hid
    (by unfold MAX_MESSAGE_LENGTH CONN_ID_SIZE at *; omega)
  unfold encode_data
  simpa using h

/-- C1 witness at a concrete connection id and payload. -/
theorem C1_data_roundtrip_witness :
    decode_message (encode_data [1, 2, 3, 4] [5, 6])
      = (.ok (.DATA, [1, 2, 3, 4], [5, 6], true), []) :=
  C1_data_roundtrip [1, 2, 3, 4] [5, 6] (by decide) (by decide)

/-! ## Resync through garbage (C3) -/

/-- The sync magic, byte for byte. -/
theorem sync_magic_bytes_eq : SYNC_MAGIC_BYTES = [0x00, 0x10, 0x5A, 0x5E] := by
  decide

/-- One step of the resync scan: a non-matching window under the scan
budget slides one byte. -/
theorem resync_cons (w : Bytes) (hne : w ≠ SYNC_MAGIC_BYTES) (n : Nat)
    (hn : n < MAX_RESYNC_BYTES) (b : Byte) (s : Bytes) :
    resync w n (b :: s) = resync (w.drop 1 ++ [b]) (n + 1) s := by
  rw [resync.eq_def]
  simp [hne, Nat.not_le.mpr hn]

/-- The resync scan walks over a garbage prefix `u` none of whose 4-byte
windows (including the ones straddling into the frame) equals the sync
magic, and stops exactly at the sync magic that follows. -/
theorem resync_through (u t : Bytes) : ∀ n : Nat,
    (∀ k, k < u.length →
      ((u ++ (SYNC_MAGIC_BYTES ++ t)).drop k).take 4 ≠ SYNC_MAGIC_BYTES) →
    n + u.length ≤ MAX_RESYNC_BYTES →
    resync ((u ++ (SYNC_MAGIC_BYTES ++ t)).take 4) n
        ((u ++ (SYNC_MAGIC_BYTES ++ t)).drop 4) = (true, t) := by
  have hmlen : SYNC_MAGIC_BYTES.length = 4 := rfl
  induction u with
  | nil =>
    intro n _ _
    simp only [List.nil_append, List.take_left' hmlen, List.drop_left' hmlen]
    exact resync_magic n t
  | cons b u ih =>
    intro n hwin hn
    have hRlen : 4 ≤ (u ++ (SYNC_MAGIC_BYTES ++ t)).length := by
      simp [hmlen]
      omega
    have hR3 : 3 < (u ++ (SYNC_MAGIC_BYTES ++ t)).length := by omega
    -- the current window is not the magic
    have hne : ((b :: u) ++ (SYNC_MAGIC_BYTES ++ t)).take 4 ≠ SYNC_MAGIC_BYTES := by
      have := hwin 0 (by simp)
      simpa using this
    -- decompose the stream after the window
    have hdrop4 : ((b :: u) ++ (SYNC_MAGIC_BYTES ++ t)).drop 4
        = (u ++ (SYNC_MAGIC_BYTES ++ t))[3]
          :: (u ++ (SYNC_MAGIC_BYTES ++ t)).drop 4 := by
      show ((u ++ (SYNC_MAGIC_BYTES ++ t))).drop 3 = _
      exact List.drop_eq_getElem_cons hR3
    have h43 : (u ++ (SYNC_MAGIC_BYTES ++ t)).take 4
        = (u ++ (SYNC_MAGIC_BYTES ++ t)).take 3
          ++ [(u ++ (SYNC_MAGIC_BYTES ++ t))[3]] := by
      have h := @List.take_succ _ (u ++ (SYNC_MAGIC_BYTES ++ t)) 3
      rw [List.getElem?_eq_getElem hR3] at h
      exact h
    have hslide : (((b :: u) ++ (SYNC_MAGIC_BYTES ++ t)).take 4).drop 1
          ++ [(u ++ (SYNC_MAGIC_BYTES ++ t))[3]]
        = (u ++ (SYNC_MAGIC_BYTES ++ t)).take 4 := by
      show (u ++ (SYNC_MAGIC_BYTES ++ t)).take 3
          ++ [(u ++ (SYNC_MAGIC_BYTES ++ t))[3]] = _
      rw [h43]
    rw [hdrop4, resync_cons _ hne n (by simp at hn; omega), hslide]
    exact ih (n + 1)
      (fun k hk => by
        have := hwin (k + 1) (by simp only [List.length_cons]; omega)
        simpa using this)
      (by simp at hn; omega)

/-- If the sync magic is not an infix of the garbage prefix `u`, then no
4-byte window starting inside `u` of the stream `u ++ magic ++ t` equals
the magic — windows straddling the boundary cannot match because the
magic does not overlap itself. -/
theorem windows_ne_magic (u t : Bytes) (hinf : ¬ SYNC_MAGIC_BYTES <:+: u) :
    ∀ k, k < u.length →
      ((u ++ (SYNC_MAGIC_BYTES ++ t)).drop k).take 4 ≠ SYNC_MAGIC_BYTES := by
  intro k hk heq
  rw [List.drop_append_of_le_length (by omega)] at heq
  by_cases hr : 4 ≤ (u.drop k).length
  · -- window fully inside the garbage: the magic would be an infix of u
    rw [List.take_append_of_le_length hr] at heq
    apply hinf
    refine ⟨u.take k, (u.drop k).drop 4, ?_⟩
    rw [List.append_assoc, ← heq, List.take_append_drop, List.take_append_drop]
  · -- window straddles into the frame: impossible by non-overlap
    have hlen : (u.drop k).length = u.length - k := List.length_drop k u
    have h1 : 1 ≤ (u.drop k).length := by omega
    rcases hd : u.drop k with _ | ⟨x, d1⟩
    · rw [hd] at h1; simp at h1
    · rw [hd] at heq hr
      rcases d1 with _ | ⟨y, d2⟩
      · rw [sync_magic_bytes_eq] at heq
        simp [List.take_succ_cons, Fin.ext_iff] at heq
        obtain ⟨-, hfalse, -⟩ := heq
        exact absurd hfalse (by decide)
      · rcases d2 with _ | ⟨z, d3⟩
        · rw [sync_magic_bytes_eq] at heq
          simp [List.take_succ_cons, Fin.ext_iff] at heq
          obtain ⟨-, -, hfalse, -⟩ := heq
          exact absurd hfalse (by decide)
        · rcases d3 with _ | ⟨w, d4⟩
          · rw [sync_magic_bytes_eq] at heq
            simp [List.take_succ_cons, Fin.ext_iff] at heq
            obtain ⟨-, -, -, hfalse⟩ := heq
            exact absurd hfalse (by decide)
          · exact hr (by simp)

/-- C3 (amended): prepending up to `MAX_RESYNC_BYTES - 4` arbitrary bytes
that do not contain the sync magic as a contiguous substring before a
valid frame still decodes that frame successfully. -/
theorem C3_resync_magicfree (g p rest : Bytes)
    (hinf : ¬ SYNC_MAGIC_BYTES <:+: g)
    (hg : g.length ≤ MAX_RESYNC_BYTES - 4)
    (hp : p.length ≤ MAX_MESSAGE_LENGTH) :
    decode (g ++ encode p ++ rest) = ((some p, true), rest) := by
  have hmlen : SYNC_MAGIC_BYTES.length = 4 := rfl
  have hassoc : g ++ encode p ++ rest
      = g ++ (SYNC_MAGIC_BYTES
          ++ (uint32_to_bytes p.length ++ (p ++ (uint32_to_bytes (crc32 p) ++ rest)))) := by
    unfold encode
    simp [List.append_assoc]
  rw [hassoc]
  have h := decode_of_resync
    (g ++ (SYNC_MAGIC_BYTES
      ++ (uint32_to_bytes p.length ++ (p ++ (uint32_to_bytes (crc32 p) ++ rest)))))
    p (uint32_to_bytes (crc32 p)) rest
    (by simp [hmlen]; omega)
    (resync_through g _ 0 (windows_ne_magic g _ hinf)
      (by unfold MAX_RESYNC_BYTES at *; omega))
    hp (uint32_to_bytes_length _)
  rw [uint32_from_to _ (crc32_lt p)] at h
  simpa using h

/-- C3 counterexample: the claim quantifies over arbitrary prepended
bytes, but garbage that itself contains the sync magic derails the
decoder.  Prepending the 4 magic bytes before the valid frame for the
empty payload makes the decoder read the frame's own magic as a length
field (`0x5E5A1000 > MAX_MESSAGE_LENGTH`) and fail, instead of decoding
the frame. -/
theorem C3_counterexample :
    (decode (SYNC_MAGIC_BYTES ++ encode [])).1 = (none, false) := by decide

/-- C3 (amended) witness: six junk bytes (spec scenario 4) before the
frame for payload "hello". -/
theorem C3_resync_magicfree_witness :
    decode ([0, 1, 2, 3, 4, 5] ++ encode [104, 101, 108, 108, 111] ++ [])
      = ((some [104, 101, 108, 108, 111], true), []) :=
  C3_resync_magicfree [0, 1, 2, 3, 4, 5] [104, 101, 108, 108, 111] []
    (by decide) (by decide) (by decide)

/-! ## Stream consumption and fuel irrelevance -/

theorem resync_snd_length (w : Bytes) (n : Nat) (s : Bytes) :
    ((resync w n s).2).length ≤ s.length := by
  induction s generalizing w n with
  | nil =>
    rw [resync.eq_def]
    split
    · simp
    · split
      · simp
      · simp
  | cons b s ih =>
    rw [resync.eq_def]
    split
    · simp
    · split
      · simp
      · exact le_trans (ih _ _) (by simp)

theorem decode_snd_length (s : Bytes) (h : s ≠ []) :
    ((decode s).2).length < s.length := by
  have hlen1 : 1 ≤ s.length := List.length_pos.mpr h
  have hres := resync_snd_length (s.take 4) 0 (s.drop 4)
  simp only [decode]
  split
  · rename_i h4
    simp only [List.length_drop]
    simp only [List.length_take] at h4
    omega
  · rename_i h4
    have hslen : 4 ≤ s.length := by
      simp only [List.length_take] at h4
      omega
    split
    · rename_i s2 heq
      rw [heq] at hres
      simp only [List.length_drop] at hres ⊢
      omega
    · rename_i s2 heq
      rw [heq] at hres
      simp only [List.length_drop] at hres
      split
      · simp only [List.length_drop]
        omega
      · split
        · simp only [List.length_drop]
          omega
        · split
          · simp only [List.length_drop]
            omega
          · simp only [List.length_drop]
            omega

theorem decode_message_snd_length (s : Bytes) (h : s ≠ []) :
    ((decode_message s).2).length < s.length := by
  have hd := decode_snd_length s h
  unfold decode_message
  rcases hres : decode s with ⟨⟨payload, crcOk⟩, s'⟩
  rw [hres] at hd
  rcases payload with _ | p
  · exact hd
  · simp only []
    split
    · exact hd
    · split
      · exact hd
      · exact hd

theorem client_shutdown_go_fuel (connId : Bytes) : ∀ f1 f2 s,
    s.length < f1 → s.length < f2 →
    client_shutdown_go connId f1 s = client_shutdown_go connId f2 s := by
  intro f1
  induction f1 with
  | zero => intro f2 s h1 _; exact absurd h1 (by omega)
  | succ f ih =>
    intro f2 s h1 h2
    cases f2 with
    | zero => exact absurd h2 (by omega)
    | succ g =>
      simp only [client_shutdown_go]
      cases he : s.isEmpty
      · have hne : s ≠ [] := by simpa [List.isEmpty_iff] using he
        have hlt := decode_message_snd_length s hne
        rcases hdm : decode_message s with ⟨res, s'⟩
        rw [hdm] at hlt
        simp at hlt
        rcases res with e | ⟨t, recvId, data, crcOk⟩
        · show client_shutdown_go connId f s' = client_shutdown_go connId g s'
          exact ih g s' (by omega) (by omega)
        · show (if t = MsgType.FIN_ACK ∧ recvId = connId ∧ crcOk = true then true
              else client_shutdown_go connId f s')
            = (if t = MsgType.FIN_ACK ∧ recvId = connId ∧ crcOk = true then true
              else client_shutdown_go connId g s')
          split
          · rfl
          · exact ih g s' (by omega) (by omega)
      · rfl

theorem wait_for_fin_go_fuel (connId : Bytes) : ∀ f1 f2 s,
    s.length < f1 → s.length < f2 →
    wait_for_fin_go connId f1 s = wait_for_fin_go connId f2 s := by
  intro f1
  induction f1 with
  | zero => intro f2 s h1 _; exact absurd h1 (by omega)
  | succ f ih =>
    intro f2 s h1 h2
    cases f2 with
    | zero => exact absurd h2 (by omega)
    | succ g =>
      simp only [wait_for_fin_go]
      cases he : s.isEmpty
      · have hne : s ≠ [] := by simpa [List.isEmpty_iff] using he
        have hlt := decode_message_snd_length s hne
        rcases hdm : decode_message s with ⟨res, s'⟩
        rw [hdm] at hlt
        simp at hlt
        rcases res with e | ⟨t, recvId, data, crcOk⟩
        · show wait_for_fin_go connId f s' = wait_for_fin_go connId g s'
          exact ih g s' (by omega) (by omega)
        · show (if t = MsgType.FIN ∧ recvId = connId ∧ crcOk = true then true
              else wait_for_fin_go connId f s')
            = (if t = MsgType.FIN ∧ recvId = connId ∧ crcOk = true then true
              else wait_for_fin_go connId g s')
          split
          · rfl
          · exact ih g s' (by omega) (by omega)
      · rfl

theorem server_wait_ack_go_fuel (connId : Bytes) : ∀ f1 f2 s,
    s.length < f1 → s.length < f2 →
    server_wait_ack_go connId f1 s = server_wait_ack_go connId f2 s := by
  intro f1
  induction f1 with
  | zero => intro f2 s h1 _; exact absurd h1 (by omega)
  | succ f ih =>
    intro f2 s h1 h2
    cases f2 with
    | zero => exact absurd h2 (by omega)
    | succ g =>
      simp only [server_wait_ack_go]
      cases he : s.isEmpty
      · have hne : s ≠ [] := by simpa [List.isEmpty_iff] using he
        have hlt := decode_message_snd_length s hne
        rcases hdm : decode_message s with ⟨res, s'⟩
        rw [hdm] at hlt
        simp at hlt
        rcases res with e | ⟨t, recvId, data, crcOk⟩
        · show server_wait_ack_go connId f s' = server_wait_ack_go connId g s'
          exact ih g s' (by omega) (by omega)
        · show (if t = MsgType.ACK ∧ recvId = connId ∧ crcOk = true then
              match decode_ack_with_params (MsgType.ACK.toByte :: (recvId ++ data)) with
              | none => server_wait_ack_go connId f s'
              | some (_, msgCount) => some msgCount
            else server_wait_ack_go connId f s')
            = (if t = MsgType.ACK ∧ recvId = connId ∧ crcOk = true then
              match decode_ack_with_params (MsgType.ACK.toByte :: (recvId ++ data)) with
              | none => server_wait_ack_go connId g s'
              | some (_, msgCount) => some msgCount
            else server_wait_ack_go connId g s')
          split
          · split
            · exact ih g s' (by omega) (by omega)
            · rfl
          · exact ih g s' (by omega) (by omega)
      · rfl

/-! ## recv_data on well-formed frames -/

/-- `recv_data` on a stream beginning with a CRC-valid typed frame for the
session's connection id: DATA yields the tail, FIN yields
`(b"", False, FIN)`, anything else raises `UnexpectedMessageError`. -/
theorem recv_data_encode (t : MsgType) (connId tail rest : Bytes)
    (hid : connId.length = CONN_ID_SIZE)
    (hp : 1 + CONN_ID_SIZE + tail.length ≤ MAX_MESSAGE_LENGTH) :
    recv_data connId (encode (t.toByte :: (connId ++ tail)) ++ rest)
      = (match t with
        | .DATA => (.ok (tail, true, .DATA), rest)
        | .FIN => (.ok ([], false, .FIN), rest)
        | _ => (.error .unexpectedMessage, rest)) := by
  unfold recv_data
  rw [decode_message_encode t connId tail rest hid hp]
  cases t <;> simp

/-- `recv_data` surfaces a FIN for the session's connection id as
`([], false, FIN)` whatever the frame's declared CRC bytes are. -/
theorem recv_data_fin_any_crc (connId crcB rest : Bytes)
    (hid : connId.length = 4) (hc : crcB.length = 4) :
    recv_data connId (SYNC_MAGIC_BYTES ++ uint32_to_bytes 5
        ++ (MsgType.FIN.toByte :: connId) ++ crcB ++ rest)
      = (.ok ([], false, .FIN), rest) := by
  have h := decode_message_framed .FIN connId [] crcB rest
    (by simpa [CONN_ID_SIZE] using hid) hc
    (by simp [CONN_ID_SIZE, MAX_MESSAGE_LENGTH])
  rw [List.append_nil] at h
  have hlen : (MsgType.FIN.toByte :: connId).length = 5 := by simp [hid]
  rw [hlen] at h
  unfold recv_data
  rw [h]
  simp

/-! ## C5: a typed frame that is neither DATA nor FIN -/

/-- C5 counterexample: a CRC-valid SYN-ACK frame carrying the session's
own connection id makes `recv_data` raise `UnexpectedMessageError`, which
`client_exchange` does not catch (it catches only transport, encoding and
connection-mismatch errors) — the error escapes instead of the frame
being skipped silently. -/
theorem C5_counterexample :
    client_exchange ⟨encode_control .SYN_ACK [1, 2, 3, 4],
        fun _ => some 17, fun _ => 0⟩ [1, 2, 3, 4] 1
      = .error () := by rfl

/-- C5 (amended): during the client session loop, a decoded frame with
the session's connection id whose type is neither DATA nor FIN is not
skipped: `recv_data` raises `UnexpectedMessageError`, which
`client_exchange` does not catch, so the loop aborts at that round and
the error escapes `client_exchange`. -/
theorem C5_unexpected_frame_escapes (env : PortEnv) (connId : Bytes)
    (i remaining : Nat) (st : Stats) (t : MsgType) (rest : Bytes)
    (msgCount : Nat) (hid : connId.length = 4)
    (ht1 : t ≠ .DATA) (ht2 : t ≠ .FIN) :
    client_loop env connId i (remaining + 1) st (encode_control t connId ++ rest)
        = .error ()
      ∧ (env.stream = encode_control t connId ++ rest → 1 ≤ msgCount →
          client_exchange env connId msgCount = .error ()) := by
  have hrecv : recv_data connId (encode_control t connId ++ rest)
      = (.error .unexpectedMessage, rest) := by
    have h := recv_data_encode t connId [] rest
      (by simpa [CONN_ID_SIZE] using hid)
      (by simp [CONN_ID_SIZE, MAX_MESSAGE_LENGTH])
    rw [List.append_nil] at h
    unfold encode_control
    rw [h]
    cases t <;> simp_all
  have hloop : ∀ i' st', client_loop env connId i' (remaining + 1) st'
      (encode_control t connId ++ rest) = .error () := by
    intro i' st'
    simp only [client_loop]
    rw [hrecv]
  refine ⟨hloop i st, fun hs hm => ?_⟩
  obtain ⟨m, rfl⟩ : ∃ m, msgCount = m + 1 := ⟨msgCount - 1, by omega⟩
  unfold client_exchange
  rw [if_neg (by omega), hs]
  have hl : ∀ i' st', client_loop env connId i' (m + 1) st'
      (encode_control t connId ++ rest) = .error () := by
    intro i' st'
    simp only [client_loop]
    rw [hrecv]
  rw [hl 0 Stats.start]

/-- C5 (amended) witness: a SYN-ACK frame for the session id at round 0,
with one round requested. -/
theorem C5_unexpected_frame_escapes_witness :
    client_exchange ⟨encode_control .SYN_ACK [1, 2, 3, 4] ++ [],
        fun _ => some 17, fun _ => 0⟩ [1, 2, 3, 4] 1
      = .error () :=
  (C5_unexpected_frame_escapes
    ⟨encode_control .SYN_ACK [1, 2, 3, 4] ++ [], fun _ => some 17, fun _ => 0⟩
    [1, 2, 3, 4] 0 0 Stats.start .SYN_ACK [] 1 (by decide)
    (by decide) (by decide)).2 rfl (by omega)

/-! ## C6: the zero-message client session -/

/-- C6 counterexample: with `msg_count = 0` and a silent peer (empty
stream), `client_shutdown` never receives FIN-ACK, yet `client_exchange`
returns `success = true` with `fin_ack_received = false` — the claim's
"success is false when shutdown fails" does not hold. -/
theorem C6_counterexample :
    client_exchange ⟨[], fun _ => some 17, fun _ => 0⟩ [1, 2, 3, 4] 0
      = .ok ⟨true, 0, 0, 0, 0, 0, 0, [], none, false, false⟩ := by rfl

/-- C6 (amended): when `msg_count = 0` the client performs no data rounds
(`sent = received = 0`), proceeds directly to shutdown, and returns
`success = true` unconditionally; the shutdown outcome is recorded only
in `fin_ack_received`, which is `true` when a CRC-valid FIN-ACK for the
session id arrives and `false` when the stream ends without one. -/
theorem C6_zero_messages (env : PortEnv) (connId : Bytes)
    (hid : connId.length = 4) :
    client_exchange env connId 0
        = .ok (mkResult true Stats.start none
            (client_shutdown connId env.stream) false)
      ∧ (∀ rest, client_shutdown connId (encode_control .FIN_ACK connId ++ rest)
          = true)
      ∧ client_shutdown connId [] = false := by
  refine ⟨rfl, fun rest => ?_, rfl⟩
  have hdm : decode_message (encode_control .FIN_ACK connId ++ rest)
      = (.ok (.FIN_ACK, connId, [], true), rest) := by
    have h := decode_message_encode .FIN_ACK connId [] rest
      (by simpa [CONN_ID_SIZE] using hid)
      (by simp [CONN_ID_SIZE, MAX_MESSAGE_LENGTH])
    rw [List.append_nil] at h
    unfold encode_control
    rw [h]
  have hne : (encode_control .FIN_ACK connId ++ rest).isEmpty = false := by
    unfold encode_control encode
    simp [SYNC_MAGIC_BYTES, uint32_to_bytes]
  unfold client_shutdown
  generalize (encode_control .FIN_ACK connId ++ rest).length = F
  simp only [client_shutdown_go, hne, hdm]
  simp

/-- C6 (amended) witness at a concrete connection id: failing shutdown
still yields `success = true`, and a FIN-ACK frame makes
`fin_ack_received = true`. -/
theorem C6_zero_messages_witness :
    client_exchange ⟨[], fun _ => none, fun _ => 0⟩ [1, 2, 3, 4] 0
        = .ok (mkResult true Stats.start none
            (client_shutdown [1, 2, 3, 4] []) false)
      ∧ (∀ rest, client_shutdown [1, 2, 3, 4]
          (encode_control .FIN_ACK [1, 2, 3, 4] ++ rest) = true)
      ∧ client_shutdown [1, 2, 3, 4] [] = false :=
  C6_zero_messages ⟨[], fun _ => none, fun _ => 0⟩ [1, 2, 3, 4] (by decide)

/-! ## C7: ACK without session params -/

/-- C7: in the SYN-ACK-sent phase, a CRC-valid ACK with matching
connection id whose payload is shorter than 9 bytes (tail shorter than
the 4-byte msg_count) is ignored — the wait continues on the rest of the
stream exactly as if the ACK had not arrived — and when no well-formed
ACK ever arrives the phase ends in the `PeeringError` timeout
(`none`). -/
theorem C7_short_ack_ignored (connId tail rest : Bytes)
    (hid : connId.length = 4) (htail : tail.length < 4) :
    server_send_syn_ack_wait_ack connId
        (encode (MsgType.ACK.toByte :: (connId ++ tail)) ++ rest)
      = server_send_syn_ack_wait_ack connId rest
    ∧ server_send_syn_ack_wait_ack connId [] = none := by
  constructor
  · have hdm : decode_message (encode (MsgType.ACK.toByte :: (connId ++ tail)) ++ rest)
        = (.ok (.ACK, connId, tail, true), rest) :=
      decode_message_encode .ACK connId tail rest
        (by simpa [CONN_ID_SIZE] using hid)
        (by simp [CONN_ID_SIZE, MAX_MESSAGE_LENGTH]; omega)
    have hne : (encode (MsgType.ACK.toByte :: (connId ++ tail)) ++ rest).isEmpty
        = false := by
      unfold encode
      simp [SYNC_MAGIC_BYTES, uint32_to_bytes]
    have hshort : decode_ack_with_params
        (MsgType.ACK.toByte :: (connId ++ tail)) = none := by
      unfold decode_ack_with_params
      rw [if_pos]
      simp [CONN_ID_SIZE, hid]
      omega
    have hfrm : 12 ≤ (encode (MsgType.ACK.toByte :: (connId ++ tail))).length := by
      unfold encode
      simp [show SYNC_MAGIC_BYTES.length = 4 from rfl, uint32_to_bytes_length]
      omega
    have hstep : ∀ (fuel : Nat) (s s' : Bytes), s.isEmpty = false →
        decode_message s = (.ok (.ACK, connId, tail, true), s') →
        server_wait_ack_go connId (fuel + 1) s
          = server_wait_ack_go connId fuel s' := by
      intro fuel s s' hne' hdm'
      simp only [server_wait_ack_go, hne', hdm']
      simp [hshort]
    unfold server_send_syn_ack_wait_ack
    rw [hstep _ _ _ hne hdm]
    apply server_wait_ack_go_fuel
    · rw [List.length_append]
      omega
    · omega
  · rfl

/-- C7 witness: an ACK with empty tail (spec scenario 6) followed by
nothing: the wait skips it and then times out. -/
theorem C7_short_ack_ignored_witness :
    server_send_syn_ack_wait_ack [1, 2, 3, 4]
        (encode (MsgType.ACK.toByte :: ([1, 2, 3, 4] ++ [])) ++ [])
      = server_send_syn_ack_wait_ack [1, 2, 3, 4] []
    ∧ server_send_syn_ack_wait_ack [1, 2, 3, 4] [] = none :=
  C7_short_ack_ignored [1, 2, 3, 4] [] [] (by decide) (by decide)

/-! ## C10: a FIN terminates the round even with a failed CRC -/

/-- C10: for any declared CRC bytes — in particular corrupted ones —
a decoded FIN frame carrying the session's connection id makes
`recv_data` return `(b"", crc_ok = false, FIN)`, discarding the frame's
actual CRC status; consequently both `client_exchange` and
`server_exchange` take their peer-FIN early-termination paths on such a
frame. -/
theorem C10_fin_ignores_crc (connId crcB rest : Bytes)
    (w : Nat → Option Nat) (rtts : Nat → ℚ) (m : Nat)
    (hid : connId.length = 4) (hc : crcB.length = 4) :
    recv_data connId (SYNC_MAGIC_BYTES ++ uint32_to_bytes 5
        ++ (MsgType.FIN.toByte :: connId) ++ crcB ++ rest)
      = (.ok ([], false, .FIN), rest)
    ∧ (∃ r, client_exchange ⟨SYNC_MAGIC_BYTES ++ uint32_to_bytes 5
          ++ (MsgType.FIN.toByte :: connId) ++ crcB ++ rest, w, rtts⟩
          connId (m + 1) = .ok r
        ∧ r.success = false ∧ r.error = some .serverSentFin)
    ∧ (∃ r, server_exchange ⟨SYNC_MAGIC_BYTES ++ uint32_to_bytes 5
          ++ (MsgType.FIN.toByte :: connId) ++ crcB ++ rest, w, rtts⟩
          connId (m + 1) = .ok r
        ∧ r.success = false ∧ r.error = some (.clientSentFin 0)
        ∧ r.fin_received = true) := by
  have hrecv := recv_data_fin_any_crc connId crcB rest hid hc
  refine ⟨hrecv, ?_, ?_⟩
  · refine ⟨mkResult false
      (if truthy (w 0) then ⟨0 + 1, 0, 0, 0, 0 + (w 0).getD 0, 0, []⟩
        else Stats.start) (some .serverSentFin) false false, ?_, rfl, rfl⟩
    unfold client_exchange
    rw [if_neg (by omega)]
    simp only [client_loop]
    rw [hrecv]
    rfl
  · refine ⟨mkResult false Stats.start (some (.clientSentFin 0)) false true,
      ?_, rfl, rfl, rfl⟩
    unfold server_exchange
    rw [if_neg (by omega)]
    simp only [server_loop]
    rw [hrecv]
    rfl

/-- C10 witness: a FIN frame with zeroed (wrong) CRC bytes at the start
of a three-round session. -/
theorem C10_fin_ignores_crc_witness :
    recv_data [1, 2, 3, 4] (SYNC_MAGIC_BYTES ++ uint32_to_bytes 5
        ++ (MsgType.FIN.toByte :: [1, 2, 3, 4]) ++ [0, 0, 0, 0] ++ [])
      = (.ok ([], false, .FIN), [])
    ∧ (∃ r, client_exchange ⟨SYNC_MAGIC_BYTES ++ uint32_to_bytes 5
          ++ (MsgType.FIN.toByte :: [1, 2, 3, 4]) ++ [0, 0, 0, 0] ++ [],
          fun _ => some 17, fun _ => 0⟩ [1, 2, 3, 4] (2 + 1) = .ok r
        ∧ r.success = false ∧ r.error = some .serverSentFin)
    ∧ (∃ r, server_exchange ⟨SYNC_MAGIC_BYTES ++ uint32_to_bytes 5
          ++ (MsgType.FIN.toByte :: [1, 2, 3, 4]) ++ [0, 0, 0, 0] ++ [],
          fun _ => some 17, fun _ => 0⟩ [1, 2, 3, 4] (2 + 1) = .ok r
        ∧ r.success = false ∧ r.error = some (.clientSentFin 0)
        ∧ r.fin_received = true) :=
  C10_fin_ignores_crc [1, 2, 3, 4] [0, 0, 0, 0] []
    (fun _ => some 17) (fun _ => 0) 2 (by decide) (by decide)

/-! ## C8: SessionResult counter invariants -/

theorem handle_client_data_response_inv (st : Stats) (resp : Bytes)
    (crcOk : Bool) (x : ℚ)
    (h1 : st.crc_ok + st.crc_errors ≤ st.received)
    (h2 : st.rtt_samples.length ≤ st.crc_ok) :
    (handle_client_data_response st resp crcOk x).crc_ok
        + (handle_client_data_response st resp crcOk x).crc_errors
      ≤ (handle_client_data_response st resp crcOk x).received
    ∧ (handle_client_data_response st resp crcOk x).rtt_samples.length
      ≤ (handle_client_data_response st resp crcOk x).crc_ok
    ∧ (handle_client_data_response st resp crcOk x).sent = st.sent := by
  unfold handle_client_data_response
  cases crcOk
  · simp
    omega
  · simp
    omega

theorem handle_server_data_inv (st : Stats) (data : Bytes) (crcOk : Bool)
    (bw : Option Nat) (h1 : st.crc_ok + st.crc_errors ≤ st.received) :
    (handle_server_data st data crcOk bw).crc_ok
        + (handle_server_data st data crcOk bw).crc_errors
      ≤ (handle_server_data st data crcOk bw).received
    ∧ (handle_server_data st data crcOk bw).rtt_samples = st.rtt_samples
    ∧ (handle_server_data st data crcOk bw).sent ≤ st.sent + 1
    ∧ st.crc_ok ≤ (handle_server_data st data crcOk bw).crc_ok := by
  unfold handle_server_data
  cases crcOk <;> cases ht : truthy bw <;> simp [ht] <;> omega

theorem client_loop_stats (env : PortEnv) (connId : Bytes) :
    ∀ (remaining i : Nat) (st : Stats) (s : Bytes) (out : ClientOutcome)
      (st' : Stats) (s' : Bytes),
    client_loop env connId i remaining st s = .ok (out, st', s') →
    st.crc_ok + st.crc_errors ≤ st.received →
    st.rtt_samples.length ≤ st.crc_ok →
    st.sent ≤ i →
    (st'.crc_ok + st'.crc_errors ≤ st'.received
      ∧ st'.rtt_samples.length ≤ st'.crc_ok
      ∧ st'.sent ≤ i + remaining) := by
  intro remaining
  induction remaining with
  | zero =>
    intro i st s out st' s' hloop h1 h2 h3
    simp only [client_loop] at hloop
    obtain ⟨-, rfl, -⟩ := by
      simpa using hloop
    exact ⟨h1, h2, by omega⟩
  | succ rem ih =>
    intro i st s out st' s' hloop h1 h2 h3
    simp only [client_loop] at hloop
    rcases hrcv : recv_data connId s with ⟨res, s2⟩
    rw [hrcv] at hloop
    set st1 := (if truthy (env.writeRes i) then
      { st with sent := st.sent + 1, bytes_sent := st.bytes_sent + (env.writeRes i).getD 0 }
      else st) with hst1def
    have p1 : st1.crc_ok = st.crc_ok := by
      rw [hst1def]
      split <;> rfl
    have p2 : st1.crc_errors = st.crc_errors := by
      rw [hst1def]
      split <;> rfl
    have p3 : st1.received = st.received := by
      rw [hst1def]
      split <;> rfl
    have p4 : st1.rtt_samples = st.rtt_samples := by
      rw [hst1def]
      split <;> rfl
    have p5 : st1.sent ≤ i + 1 := by
      rw [hst1def]
      split
      · simp
        omega
      · omega
    have h1' : st1.crc_ok + st1.crc_errors ≤ st1.received := by
      rw [p1, p2, p3]
      exact h1
    have h2' : st1.rtt_samples.length ≤ st1.crc_ok := by
      rw [p4, p1]
      exact h2
    rcases res with e | ⟨resp, crcOk, t⟩
    · cases e
      case unexpectedMessage => exact absurd hloop (by simp)
      all_goals
        obtain ⟨-, rfl, -⟩ := by simpa using hloop
        exact ⟨h1', h2', by omega⟩
    · cases t
      case DATA =>
        have hin := handle_client_data_response_inv st1 resp crcOk (env.rtt i) h1' h2'
        have hs : (handle_client_data_response st1 resp crcOk (env.rtt i)).sent
            ≤ i + 1 := by
          rw [hin.2.2]
          exact p5
        have hnext := ih (i + 1) _ s2 out st' s' hloop hin.1 hin.2.1 hs
        exact ⟨hnext.1, hnext.2.1, by omega⟩
      case FIN =>
        obtain ⟨-, rfl, -⟩ := by simpa using hloop
        exact ⟨h1', h2', by omega⟩
      all_goals
        have hnext := ih (i + 1) st1 s2 out st' s' hloop h1' h2' p5
        exact ⟨hnext.1, hnext.2.1, by omega⟩

theorem server_loop_stats (env : PortEnv) (connId : Bytes) :
    ∀ (remaining i : Nat) (st : Stats) (s : Bytes) (out : ServerOutcome)
      (st' : Stats) (s' : Bytes),
    server_loop env connId i remaining st s = .ok (out, st', s') →
    st.crc_ok + st.crc_errors ≤ st.received →
    st.rtt_samples.length ≤ st.crc_ok →
    st.sent ≤ i →
    (st'.crc_ok + st'.crc_errors ≤ st'.received
      ∧ st'.rtt_samples.length ≤ st'.crc_ok
      ∧ st'.sent ≤ i + remaining) := by
  intro remaining
  induction remaining with
  | zero =>
    intro i st s out st' s' hloop h1 h2 h3
    simp only [server_loop] at hloop
    obtain ⟨-, rfl, -⟩ := by
      simpa using hloop
    exact ⟨h1, h2, by omega⟩
  | succ rem ih =>
    intro i st s out st' s' hloop h1 h2 h3
    simp only [server_loop] at hloop
    rcases hrcv : recv_data connId s with ⟨res, s2⟩
    rw [hrcv] at hloop
    rcases res with e | ⟨data, crcOk, t⟩
    · cases e
      case unexpectedMessage => exact absurd hloop (by simp)
      all_goals
        obtain ⟨-, rfl, -⟩ := by simpa using hloop
        exact ⟨h1, h2, by omega⟩
    · cases t
      case DATA =>
        have hin := handle_server_data_inv st data crcOk (env.writeRes i) h1
        have hrtt : (handle_server_data st data crcOk (env.writeRes i)).rtt_samples.length
            ≤ (handle_server_data st data crcOk (env.writeRes i)).crc_ok := by
          rw [hin.2.1]
          exact le_trans h2 hin.2.2.2
        have hsent : (handle_server_data st data crcOk (env.writeRes i)).sent
            ≤ i + 1 := le_trans hin.2.2.1 (by omega)
        have hnext := ih (i + 1) _ s2 out st' s' hloop hin.1 hrtt hsent
        exact ⟨hnext.1, hnext.2.1, by omega⟩
      case FIN =>
        obtain ⟨-, rfl, -⟩ := by simpa using hloop
        exact ⟨h1, h2, by omega⟩
      all_goals
        have hnext := ih (i + 1) st s2 out st' s' hloop h1 h2 (by omega)
        exact ⟨hnext.1, hnext.2.1, by omega⟩

/-- C8: every `SessionResult` returned by `client_exchange` or
`server_exchange` with argument `msg_count` satisfies
`crc_ok + crc_errors ≤ received`, `sent ≤ msg_count + 1` and
`rtt_samples.length ≤ crc_ok`, on every error and early-FIN path. -/
theorem C8_result_invariants (env : PortEnv) (connId : Bytes) (msgCount : Nat)
    (r : SessionResult) :
    (client_exchange env connId msgCount = .ok r →
        r.crc_ok + r.crc_errors ≤ r.received ∧ r.sent ≤ msgCount + 1
          ∧ r.rtt_samples.length ≤ r.crc_ok)
    ∧ (server_exchange env connId msgCount = .ok r →
        r.crc_ok + r.crc_errors ≤ r.received ∧ r.sent ≤ msgCount + 1
          ∧ r.rtt_samples.length ≤ r.crc_ok) := by
  constructor
  · intro h
    unfold client_exchange at h
    split at h
    · obtain rfl : _ = r := by simpa using h
      simp [mkResult, Stats.start]
    · rcases hloop : client_loop env connId 0 msgCount Stats.start env.stream
        with e | ⟨⟨out, st, s2⟩⟩
      · rw [hloop] at h
        exact absurd h (by simp)
      · rw [hloop] at h
        have hinv := client_loop_stats env connId msgCount 0 Stats.start
          env.stream out st s2 hloop (by simp [Stats.start])
          (by simp [Stats.start]) (by simp [Stats.start])
        cases out
        all_goals
          obtain rfl : _ = r := by simpa using h
          simp only [mkResult]
          exact ⟨hinv.1, by omega, hinv.2.1⟩
  · intro h
    unfold server_exchange at h
    split at h
    · obtain rfl : _ = r := by simpa using h
      simp [mkResult, Stats.start]
    · rcases hloop : server_loop env connId 0 msgCount Stats.start env.stream
        with e | ⟨⟨out, st, s2⟩⟩
      · rw [hloop] at h
        exact absurd h (by simp)
      · rw [hloop] at h
        have hinv := server_loop_stats env connId msgCount 0 Stats.start
          env.stream out st s2 hloop (by simp [Stats.start])
          (by simp [Stats.start]) (by simp [Stats.start])
        cases out
        all_goals
          obtain rfl : _ = r := by simpa using h
          simp only [mkResult]
          exact ⟨hinv.1, by omega, hinv.2.1⟩

/-- C8 witness: a one-round client session against a silent peer ends in
the timeout result, which satisfies all three invariants. -/
theorem C8_result_invariants_witness :
    (mkResult false ⟨1, 0, 0, 0, 17, 0, []⟩ (some (.timeout 1)) false false).crc_ok
          + (mkResult false ⟨1, 0, 0, 0, 17, 0, []⟩ (some (.timeout 1)) false false).crc_errors
        ≤ (mkResult false ⟨1, 0, 0, 0, 17, 0, []⟩ (some (.timeout 1)) false false).received
      ∧ (mkResult false ⟨1, 0, 0, 0, 17, 0, []⟩ (some (.timeout 1)) false false).sent ≤ 1 + 1
      ∧ (mkResult false ⟨1, 0, 0, 0, 17, 0, []⟩ (some (.timeout 1)) false false).rtt_samples.length
        ≤ (mkResult false ⟨1, 0, 0, 0, 17, 0, []⟩ (some (.timeout 1)) false false).crc_ok :=
  (C8_result_invariants ⟨[], fun _ => some 17, fun _ => 0⟩ [1, 2, 3, 4] 1
    (mkResult false ⟨1, 0, 0, 0, 17, 0, []⟩ (some (.timeout 1)) false false)).1
    (by rfl)

/-! ## C9: latency statistics -/

/-- The percentile index over exact rational arithmetic equals the
nearest-rank natural-number formula `p * (n - 1) / 100`. -/
theorem percentile_nat (ms : List ℚ) (p : Nat) (h1 : 1 ≤ ms.length) :
    percentile ms (p : ℚ) = ms.getD ((p * (ms.length - 1)) / 100) 0 := by
  unfold percentile
  congr 1
  have hcast : ((ms.length : ℚ) - 1) = ((ms.length - 1 : ℕ) : ℚ) := by
    rw [Nat.cast_sub h1, Nat.cast_one]
  rw [hcast]
  have hmul : (p : ℚ) / 100 * ((ms.length - 1 : ℕ) : ℚ)
      = ((p * (ms.length - 1) : ℕ) : ℚ) / ((100 : ℕ) : ℚ) := by
    push_cast
    ring
  rw [hmul, Nat.floor_div_nat, Nat.floor_natCast]

theorem getD_replicate_lt (y : ℚ) (n i : Nat) (h : i < n) :
    (List.replicate n y).getD i 0 = y := by
  simp [List.getD, List.getElem?_replicate, h]

theorem getLastD_replicate (y : ℚ) (m : Nat) : ∀ d : ℚ,
    (List.replicate (m + 1) y).getLastD d = y := by
  induction m with
  | zero => intro d; rfl
  | succ k ih =>
    intro d
    rw [List.replicate_succ, List.getLastD_cons]
    exact ih y

/-- C9: `compute_latency_stats` returns nothing exactly on the empty
sample list; on a non-empty list each percentile `p ∈ {50, 95, 99}` is the
element at index `p * (n - 1) / 100` of the ascending-sorted samples in
milliseconds; and for `n ≥ 1` identical samples all percentiles, min, max
and average equal that sample (in milliseconds). -/
theorem C9_latency_stats :
    (∀ l : List ℚ, compute_latency_stats l = none ↔ l = [])
    ∧ (∀ (l : List ℚ) (st : LatencyStats), compute_latency_stats l = some st →
        st.p50_ms = (List.insertionSort (· ≤ ·) (l.map (fun s => s * 1000))).getD
            ((50 * (l.length - 1)) / 100) 0
        ∧ st.p95_ms = (List.insertionSort (· ≤ ·) (l.map (fun s => s * 1000))).getD
            ((95 * (l.length - 1)) / 100) 0
        ∧ st.p99_ms = (List.insertionSort (· ≤ ·) (l.map (fun s => s * 1000))).getD
            ((99 * (l.length - 1)) / 100) 0)
    ∧ (∀ (x : ℚ) (n : ℕ), 1 ≤ n →
        compute_latency_stats (List.replicate n x)
          = some ⟨n, x * 1000, x * 1000, x * 1000, x * 1000, x * 1000, x * 1000⟩) := by
  refine ⟨?_, ?_, ?_⟩
  · intro l
    unfold compute_latency_stats
    split
    · rename_i h
      simp [h]
    · rename_i h
      simp [h]
  · intro l st h
    unfold compute_latency_stats at h
    split at h
    · exact absurd h (by simp)
    · rename_i hl
      obtain rfl : _ = st := by simpa using h
      have hm : (List.insertionSort (· ≤ ·) (l.map (fun s => s * 1000))).length
          = l.length := by
        rw [List.length_insertionSort, List.length_map]
      have h1 : 1 ≤ (List.insertionSort (· ≤ ·) (l.map (fun s => s * 1000))).length := by
        rw [hm]
        exact List.length_pos.mpr hl
      refine ⟨?_, ?_, ?_⟩
      · have h50 := percentile_nat _ 50 h1
        rw [hm] at h50
        norm_num at h50 ⊢
        exact h50
      · have h95 := percentile_nat _ 95 h1
        rw [hm] at h95
        norm_num at h95 ⊢
        exact h95
      · have h99 := percentile_nat _ 99 h1
        rw [hm] at h99
        norm_num at h99 ⊢
        exact h99
  · intro x n hn
    have hms : (List.replicate n x).map (fun s => s * 1000)
        = List.replicate n (x * 1000) := List.map_replicate ..
    have hsorted : List.insertionSort (· ≤ ·) (List.replicate n (x * 1000))
        = List.replicate n (x * 1000) :=
      List.Sorted.insertionSort_eq (List.pairwise_replicate.mpr (Or.inr le_rfl))
    obtain ⟨m, rfl⟩ : ∃ m, n = m + 1 := ⟨n - 1, by omega⟩
    have hlen : 1 ≤ (List.replicate (m + 1) (x * 1000)).length := by
      simp
    unfold compute_latency_stats
    rw [if_neg (by simp)]
    simp only [hms, hsorted, List.length_replicate, Option.some.injEq,
      LatencyStats.mk.injEq]
    refine ⟨trivial, ?_, ?_, ?_, ?_, ?_, ?_⟩
    · rw [List.replicate_succ, List.headD_cons]
    · exact getLastD_replicate (x * 1000) m 0
    · rw [List.sum_replicate, nsmul_eq_mul, mul_div_cancel_left₀]
      positivity
    · have h50 := percentile_nat (List.replicate (m + 1) (x * 1000)) 50 hlen
      simp only [List.length_replicate, Nat.add_sub_cancel] at h50
      norm_cast at h50
      rw [h50, getD_replicate_lt _ _ _ (by omega)]
    · have h95 := percentile_nat (List.replicate (m + 1) (x * 1000)) 95 hlen
      simp only [List.length_replicate, Nat.add_sub_cancel] at h95
      norm_cast at h95
      rw [h95, getD_replicate_lt _ _ _ (by omega)]
    · have h99 := percentile_nat (List.replicate (m + 1) (x * 1000)) 99 hlen
      simp only [List.length_replicate, Nat.add_sub_cancel] at h99
      norm_cast at h99
      rw [h99, getD_replicate_lt _ _ _ (by omega)]

/-- C9 witness: three identical samples of 2 seconds give 2000 ms
everywhere. -/
theorem C9_latency_stats_witness :
    compute_latency_stats (List.replicate 3 2)
      = some ⟨3, 2 * 1000, 2 * 1000, 2 * 1000, 2 * 1000, 2 * 1000, 2 * 1000⟩ :=
  C9_latency_stats.2.2 2 3 (by omega)

end Serial
